import Mathlib

/-!
Shallow embedding of the photo-to-word repository (a desktop tool that lays
photographs into a two-column Word table), covering the parts exercised by the
verified properties:

- src/config.py : AppConfig.load_settings, AppConfig.get_caption_text,
  AppConfig.get_image_width, AppConfig.get_columns_count;
- src/image_processor.py : the four parallel lists of ImageProcessor and the
  public operations load_images, rotate_image, remove_images, clear_all,
  together with the private rebuild _create_thumbnails;
- src/word_generator.py : WordGenerator.generate, its cancellation protocol,
  its progress reporting, its temporary-file bookkeeping and its grid layout.

Interaction with the file system and with the PIL and python-docx libraries is
represented by oracles (Bool- or Option-valued functions) that say, per call,
whether the library call succeeds and what it reports; the control flow around
those calls is translated from the source line by line.  Python ints are
modelled as Nat or Int, Python lists as List, Python str as String.
-/

namespace PhotoTable

/-! ## config.py -/

/-- A JSON-like value as stored in the settings file read by
AppConfig.load_settings.  The obj constructor stands for a JSON object (the
window_geometry default is the empty object), and the other constructor stands
for any further JSON value a hand-edited file could hold. -/
inductive SettingValue where
  | str (s : String)
  | num (q : ℚ)
  | intv (n : ℤ)
  | obj (fields : List (String × ℚ))
  | other (tag : Nat)
deriving DecidableEq, Repr

/-- The default_settings dict built at the top of AppConfig.load_settings
(config.py lines 90-97).  Path.home() is the parameter home. -/
def default_settings (home : String) : List (String × SettingValue) :=
  [("last_path", SettingValue.str home),
   ("window_geometry", SettingValue.obj []),
   ("table_width_portrait", SettingValue.num 16),
   ("table_width_landscape", SettingValue.num 25),
   ("jpeg_quality", SettingValue.intv 85),
   ("orientation", SettingValue.str "portrait")]

/-- AppConfig.load_settings (config.py lines 88-111).  The saved argument
models the settings file: none when the file does not exist or when opening or
json-parsing it raises (both cases leave default_settings untouched), and some
f when it parses to a dict, f being key lookup in that dict.  The loop
  for key in default_settings.keys(): if key in saved: default_settings[key] = saved[key]
overrides exactly the default keys that the file also has. -/
def load_settings (home : String)
    (saved : Option (String → Option SettingValue)) : List (String × SettingValue) :=
  match saved with
  | none => default_settings home
  | some f => (default_settings home).map (fun kv => (kv.1, (f kv.1).getD kv.2))

/-- Python string slicing s[:n]: the first n characters.  Used by
AppConfig.get_caption_text for filename[:32]. -/
def strTake (s : String) (n : Nat) : String := String.mk (s.data.take n)

/-- AppConfig.get_caption_text (config.py lines 192-200): instantiate the
caption template with the 1-based number and the file name, truncating the
name to its first 32 characters plus an ellipsis when it is longer than 35
characters. -/
def get_caption_text (number : Nat) (filename : String) : String :=
  let fn := if 35 < filename.length then strTake filename 32 ++ "..." else filename
  "Рис. " ++ toString number ++ ". " ++ fn

/-- AppConfig.get_image_width (config.py lines 178-180): always the portrait
default of 400 pixels, whatever the orientation argument. -/
def get_image_width (_orientation : String) : Nat := 400

/-- AppConfig.get_columns_count (config.py lines 182-184): always 2. -/
def get_columns_count (_orientation : String) : Nat := 2

/-! ## image_processor.py -/

/-- A thumbnail held in ImageProcessor.thumbnails: either one rendered from
the image at the given rotation, or the gray placeholder added by the except
branch of _create_thumbnails. -/
inductive Thumb where
  | real (path : String) (rotation : Nat)
  | placeholder
deriving DecidableEq, Repr

/-- Outcome of the PIL calls for one image inside _create_thumbnails
(image_processor.py lines 59-87): ok sz when every call succeeds and the
opened image reports size sz; failOpen when Image.open itself raises, so the
except branch runs before anything was appended; failLate sz when Image.open
succeeded and original_sizes.append(img.size) already ran, and a later call in
the try block (rotate, thumbnail, paste) raises. -/
inductive ThumbOutcome where
  | ok (size : Nat × Nat)
  | failOpen
  | failLate (size : Nat × Nat)
deriving DecidableEq, Repr

/-- The four parallel lists of ImageProcessor (image_processor.py lines
16-23). -/
structure ImageProcessor where
  images : List String
  thumbnails : List Thumb
  rotations : List Nat
  original_sizes : List (Nat × Nat)
deriving DecidableEq, Repr

/-- ImageProcessor.__init__: all four lists start empty. -/
def ImageProcessor.init : ImageProcessor := ⟨[], [], [], []⟩

/-- What one loop iteration of _create_thumbnails appends to thumbnails and to
original_sizes, given the outcome of the PIL calls for that image.  On
failLate the size was already appended inside the try block, and the except
branch then appends the placeholder thumbnail and the (100, 100) stub size a
second time. -/
def thumbStep (rotation : Nat) (path : String) (out : ThumbOutcome) :
    List Thumb × List (Nat × Nat) :=
  match out with
  | ThumbOutcome.ok sz => ([Thumb.real path rotation], [sz])
  | ThumbOutcome.failOpen => ([Thumb.placeholder], [(100, 100)])
  | ThumbOutcome.failLate sz => ([Thumb.placeholder], [sz, (100, 100)])

/-- ImageProcessor._create_thumbnails (image_processor.py lines 54-87):
thumbnails and original_sizes are rebuilt from scratch by one loop iteration
per loaded image; images and rotations are untouched.  The oracle out gives
the outcome of the PIL calls for each index. -/
def ImageProcessor.create_thumbnails (s : ImageProcessor)
    (out : Nat → ThumbOutcome) : ImageProcessor :=
  { s with
    thumbnails := ((List.range s.images.length).map (fun i =>
      (thumbStep (s.rotations.getD i 0) (s.images.getD i "") (out i)).1)).flatten
    original_sizes := ((List.range s.images.length).map (fun i =>
      (thumbStep (s.rotations.getD i 0) (s.images.getD i "") (out i)).2)).flatten }

/-- One iteration of the loop in ImageProcessor.load_images (image_processor.py
lines 28-41): a path is appended (to images, with rotation 0, and to the local
loaded list) when its extension is supported, Image.open plus verify succeeds,
and the path is not already loaded.  The supported and verifies oracles stand
for the extension check and for the verification of the file contents. -/
def loadStep (supported verifies : String → Bool)
    (acc : ImageProcessor × List String) (p : String) : ImageProcessor × List String :=
  if supported p && verifies p && !(acc.1.images.contains p) then
    ({ acc.1 with images := acc.1.images ++ [p], rotations := acc.1.rotations ++ [0] },
     acc.2 ++ [p])
  else acc

/-- ImageProcessor.load_images (image_processor.py lines 25-47): fold the per
path step over the argument list, then rebuild the thumbnails only when at
least one image was actually loaded; the loaded list is returned. -/
def ImageProcessor.load_images (s : ImageProcessor) (file_paths : List String)
    (supported verifies : String → Bool) (out : Nat → ThumbOutcome) :
    ImageProcessor × List String :=
  let r := file_paths.foldl (loadStep supported verifies) (s, [])
  if r.2 = [] then r else (r.1.create_thumbnails out, r.2)

/-- ImageProcessor.rotate_image (image_processor.py lines 89-100): when
0 <= index < len(images), add 90 degrees modulo 360 to the stored rotation,
rebuild the thumbnails and return True; otherwise return False and leave the
state unchanged.  The index is an integer because Python also admits negative
arguments, which fail the range test. -/
def ImageProcessor.rotate_image (s : ImageProcessor) (index : ℤ)
    (out : Nat → ThumbOutcome) : Bool × ImageProcessor :=
  if 0 ≤ index ∧ index < (s.images.length : ℤ) then
    let i := index.toNat
    let s2 := { s with rotations := s.rotations.set i ((s.rotations.getD i 0 + 90) % 360) }
    (true, s2.create_thumbnails out)
  else (false, s)

/-- Insertion into a descending list, auxiliary to sortDesc. -/
def insertDesc (x : ℤ) : List ℤ → List ℤ
  | [] => [x]
  | y :: ys => if y ≤ x then x :: y :: ys else y :: insertDesc x ys

/-- Python sorted(indices, reverse=True): sort descending. -/
def sortDesc (l : List ℤ) : List ℤ := l.foldr insertDesc []

/-- One iteration of the loop in ImageProcessor.remove_images: delete the
entry at idx from all four lists when 0 <= idx < len(images), otherwise skip
the index. -/
def removeAt (s : ImageProcessor) (idx : ℤ) : ImageProcessor :=
  if 0 ≤ idx ∧ idx < (s.images.length : ℤ) then
    { images := s.images.eraseIdx idx.toNat,
      thumbnails := s.thumbnails.eraseIdx idx.toNat,
      rotations := s.rotations.eraseIdx idx.toNat,
      original_sizes := s.original_sizes.eraseIdx idx.toNat }
  else s

/-- ImageProcessor.remove_images (image_processor.py lines 102-112): delete
the given indices in descending order so that later deletions are not shifted
by earlier ones. -/
def ImageProcessor.remove_images (s : ImageProcessor) (indices : List ℤ) :
    ImageProcessor :=
  (sortDesc indices).foldl removeAt s

/-- ImageProcessor.clear_all (image_processor.py lines 114-120). -/
def ImageProcessor.clear_all (_s : ImageProcessor) : ImageProcessor := ⟨[], [], [], []⟩

/-- ImageProcessor.get_image_count. -/
def ImageProcessor.get_image_count (s : ImageProcessor) : Nat := s.images.length

/-- ImageProcessor.get_image_paths (returns a copy of the list). -/
def ImageProcessor.get_image_paths (s : ImageProcessor) : List String := s.images

/-- ImageProcessor.get_rotation (image_processor.py lines 166-170). -/
def ImageProcessor.get_rotation (s : ImageProcessor) (index : ℤ) : Nat :=
  if 0 ≤ index ∧ index < (s.rotations.length : ℤ) then s.rotations.getD index.toNat 0
  else 0

/-- The public operations of ImageProcessor, each carrying the oracles its
run consumes. -/
inductive IPOp where
  | load (file_paths : List String) (supported verifies : String → Bool)
      (out : Nat → ThumbOutcome)
  | rotate (index : ℤ) (out : Nat → ThumbOutcome)
  | remove (indices : List ℤ)
  | clear

/-- Apply one public operation to an ImageProcessor state. -/
def IPOp.apply (s : ImageProcessor) : IPOp → ImageProcessor
  | IPOp.load ps sup ver out => (s.load_images ps sup ver out).1
  | IPOp.rotate idx out => (s.rotate_image idx out).2
  | IPOp.remove idxs => s.remove_images idxs
  | IPOp.clear => s.clear_all

/-- Run a sequence of public operations from the freshly constructed
processor. -/
def runOps (ops : List IPOp) : ImageProcessor :=
  ops.foldl IPOp.apply ImageProcessor.init

/-! ## word_generator.py -/

/-- Which Python exception WordGenerator.generate raised: ValueError for the
empty batch (line 87), RuntimeError for every wrapped library failure. -/
inductive GenError where
  | valueError
  | runtimeError
deriving DecidableEq, Repr

/-- One filled cell of the generated table: image imageIndex was rendered into
the cell at (row, col); caption is the caption paragraph added below it, none
when the caption block raised and was skipped (word_generator.py lines
191-194). -/
structure CellFill where
  row : Nat
  col : Nat
  imageIndex : Nat
  caption : Option String
deriving DecidableEq, Repr

/-- The single table that generate adds to the document: its column count,
its row count (the rows are all added before the loop, lines 114-119), and
the cells filled by the loop, in loop order. -/
structure TableModel where
  cols : Nat
  rows : Nat
  cells : List CellFill
deriving DecidableEq, Repr

/-- The generated document: the orientation it was created with and the
tables added to it. -/
structure DocModel where
  orientation : String
  tables : List TableModel
deriving DecidableEq, Repr

/-- Oracles for the external events of one generate run.  cancelSig i is the
value of self.cancel_requested observed by the check at the top of loop
iteration i (it is set from another thread by cancel()); procFail i tells
whether image_processor.process_for_word raises on image i; saveFail i
whether img.save into the temporary file raises; captionFail i whether the
caption block raises (that exception is caught and the caption skipped);
callbackFail i whether progress_callback raises (that exception is caught and
only logged, so no field of the run depends on it); hasCallback tells whether
a progress_callback was supplied. -/
structure GenEnv where
  cancelSig : Nat → Bool
  procFail : Nat → Bool
  saveFail : Nat → Bool
  captionFail : Nat → Bool
  callbackFail : Nat → Bool
  hasCallback : Bool

/-- Mutable state of the generate loop: tempCreated lists the loop indices
whose NamedTemporaryFile call created a file on disk; tempRegistered those
appended to the temp_files list (line 149, only after img.save succeeded);
cells the cell fillings so far; progressCalls the (i + 1, total) arguments of
the progress_callback invocations so far. -/
structure GenState where
  tempCreated : List Nat
  tempRegistered : List Nat
  cells : List CellFill
  progressCalls : List (Nat × Nat)
deriving DecidableEq, Repr

/-- How the generate loop ended: ran through all images, returned None after
seeing cancel_requested, or raised. -/
inductive LoopExit where
  | completed
  | cancelled
  | raised (e : GenError)
deriving DecidableEq, Repr

/-- The loop of WordGenerator.generate (word_generator.py lines 125-201) over
the remaining image indices.  Per iteration, in source order: the
cancellation check (return None), process_for_word (RuntimeError on failure),
NamedTemporaryFile (which creates the file on disk at once) followed by
img.save (RuntimeError on failure, and the created file is appended to
temp_files only after the save succeeded), the cell filling at row i // cols
and column i % cols, the caption block, and the progress callback (whose
exceptions are caught, so the call is recorded whether or not it raises). -/
def genLoop (env : GenEnv) (captions : Nat → Option String) (total cols : Nat) :
    List Nat → GenState → GenState × LoopExit
  | [], st => (st, LoopExit.completed)
  | i :: rest, st =>
    if env.cancelSig i then (st, LoopExit.cancelled)
    else if env.procFail i then (st, LoopExit.raised GenError.runtimeError)
    else
      let st1 := { st with tempCreated := st.tempCreated ++ [i] }
      if env.saveFail i then (st1, LoopExit.raised GenError.runtimeError)
      else
        let st2 := { st1 with tempRegistered := st1.tempRegistered ++ [i] }
        let st3 := { st2 with
          cells := st2.cells ++ [CellFill.mk (i / cols) (i % cols) i (captions i)] }
        let st4 := if env.hasCallback then
          { st3 with progressCalls := st3.progressCalls ++ [(i + 1, total)] }
          else st3
        genLoop env captions total cols rest st4

/-- How the generate run ended: the saved document bytes, None after a
cancellation, or a raised exception. -/
inductive GenOutcome where
  | finished (doc : DocModel)
  | cancelled
  | raised (e : GenError)
deriving DecidableEq, Repr

/-- Everything observable about one generate run: its outcome, how many
tables were added to the document, the temporary files created on disk, those
registered in temp_files, those whose deletion the finally block attempted,
and the progress callback invocations. -/
structure GenResult where
  outcome : GenOutcome
  tablesAdded : Nat
  tempCreated : List Nat
  tempRegistered : List Nat
  deletionAttempted : List Nat
  progressCalls : List (Nat × Nat)
deriving DecidableEq, Repr

/-- The caption computed for loop index i (word_generator.py lines 174-176):
AppConfig.get_caption_text applied to the 1-based position and to
Path(img_path).stem, or none when the caption block raises and the except
branch skips the caption. -/
def runCaptions (env : GenEnv) (stem : String → String) (image_paths : List String) :
    Nat → Option String := fun i =>
  if env.captionFail i then none
  else some (get_caption_text (i + 1) (stem (image_paths.getD i "")))

/-- WordGenerator.generate (word_generator.py lines 60-224).  Line 69 sets
self.cancel_requested = False, discarding the value the flag had before the
call, so the initialCancel argument is dropped.  With no images a ValueError
is raised before the table is added and before any temporary file exists.
Otherwise cols = 2, the table is added with ceil(total / cols) rows, the loop
runs, and the finally block attempts deletion of exactly the files registered
in temp_files, on every exit path.  The stem argument models Path(p).stem;
the per-image captions come from AppConfig.get_caption_text with the 1-based
position and that stem, unless the caption block raises. -/
def generate (ip : ImageProcessor) (stem : String → String) (orientation : String)
    (env : GenEnv) (_initialCancel : Bool) : GenResult :=
  let _reset : Bool := false
  let image_paths := ip.get_image_paths
  let total := image_paths.length
  if total = 0 then
    { outcome := GenOutcome.raised GenError.valueError, tablesAdded := 0,
      tempCreated := [], tempRegistered := [], deletionAttempted := [],
      progressCalls := [] }
  else
    let cols := 2
    let rows_needed := (total + cols - 1) / cols
    let captions := runCaptions env stem image_paths
    let res := genLoop env captions total cols (List.range total)
      (GenState.mk [] [] [] [])
    let st := res.1
    let table : TableModel := { cols := cols, rows := rows_needed, cells := st.cells }
    let doc : DocModel := { orientation := orientation, tables := [table] }
    { outcome :=
        match res.2 with
        | LoopExit.completed => GenOutcome.finished doc
        | LoopExit.cancelled => GenOutcome.cancelled
        | LoopExit.raised e => GenOutcome.raised e,
      tablesAdded := 1,
      tempCreated := st.tempCreated,
      tempRegistered := st.tempRegistered,
      deletionAttempted := st.tempRegistered,
      progressCalls := st.progressCalls }

/-! ## Predicates over the embedded state -/

/-- The admissible rotation values. -/
def RotValues : List Nat := [0, 90, 180, 270]

/-- Invariant of the processor state: every stored rotation is one of 0, 90,
180, 270. -/
def RotInv (s : ImageProcessor) : Prop := ∀ r ∈ s.rotations, r ∈ RotValues

/-- The parallel-lists property of ImageProcessor: thumbnails, rotations and
original_sizes all have the length of images. -/
def EqLen (s : ImageProcessor) : Prop :=
  s.thumbnails.length = s.images.length ∧
  s.rotations.length = s.images.length ∧
  s.original_sizes.length = s.images.length

/-- Whether the outcome is a failure raised after the original size was
already appended. -/
def ThumbOutcome.isLate : ThumbOutcome → Bool
  | ThumbOutcome.failLate _ => true
  | _ => false

/-- An operation whose thumbnail-creation outcomes never fail between the
append of the original size and the append of the thumbnail, so every
failure happens at Image.open. -/
def IPOp.goodOut : IPOp → Prop
  | IPOp.load _ _ _ out => ∀ i, (out i).isLate = false
  | IPOp.rotate _ out => ∀ i, (out i).isLate = false
  | _ => True

/-- One 90 degree step on the rotations list at index i, as performed by the
in-range branch of rotate_image. -/
def listRot (l : List Nat) (i : Nat) : List Nat :=
  l.set i ((l.getD i 0 + 90) % 360)

/-- The six keys of the default settings dict, in insertion order. -/
def settings_keys : List String :=
  ["last_path", "window_geometry", "table_width_portrait",
   "table_width_landscape", "jpeg_quality", "orientation"]

/-! ## Fixtures used by the closed witness statements -/

/-- An outcome oracle on which every PIL call succeeds. -/
def outOK : Nat → ThumbOutcome := fun _ => ThumbOutcome.ok (1, 1)

/-- A processor holding a single loaded image. -/
def ipA : ImageProcessor :=
  { images := ["a"], thumbnails := [Thumb.placeholder], rotations := [0],
    original_sizes := [(1, 1)] }

/-- A processor holding three loaded images. -/
def ipABC : ImageProcessor :=
  { images := ["a", "b", "c"],
    thumbnails := [Thumb.placeholder, Thumb.placeholder, Thumb.placeholder],
    rotations := [0, 0, 0],
    original_sizes := [(1, 1), (1, 1), (1, 1)] }

/-- A run environment in which no external failure and no cancellation
occurs and a progress callback is supplied. -/
def cleanEnv : GenEnv :=
  { cancelSig := fun _ => false, procFail := fun _ => false,
    saveFail := fun _ => false, captionFail := fun _ => false,
    callbackFail := fun _ => false, hasCallback := true }

/-- A run environment in which cancel was requested before the loop started
observing the flag. -/
def allCancelEnv : GenEnv := { cleanEnv with cancelSig := fun _ => true }

/-- A run environment in which saving the first temporary file raises. -/
def saveFailEnv : GenEnv := { cleanEnv with saveFail := fun i => i = 0 }

/-- The single table of the clean three-image run. -/
def tabABC : TableModel :=
  { cols := 2, rows := 2,
    cells := [CellFill.mk 0 0 0 (some "Рис. 1. a"),
              CellFill.mk 0 1 1 (some "Рис. 2. b"),
              CellFill.mk 1 0 2 (some "Рис. 3. c")] }

/-- The document of the clean three-image run. -/
def dABC : DocModel := { orientation := "portrait", tables := [tabABC] }

/-! ## Lemmas about the generate loop -/

/-- Over indices on which no cancellation is observed and no library call
fails, the generate loop processes every index in order and completes. -/
theorem genLoop_clean (env : GenEnv) (captions : Nat → Option String)
    (total cols : Nat) (is : List Nat) (st : GenState)
    (h : ∀ i ∈ is, env.cancelSig i = false ∧ env.procFail i = false ∧
      env.saveFail i = false) :
    genLoop env captions total cols is st =
      ({ tempCreated := st.tempCreated ++ is,
         tempRegistered := st.tempRegistered ++ is,
         cells := st.cells ++
           is.map (fun i => CellFill.mk (i / cols) (i % cols) i (captions i)),
         progressCalls := st.progressCalls ++
           (if env.hasCallback then is.map (fun i => (i + 1, total)) else []) },
       LoopExit.completed) := by
  induction is generalizing st with
  | nil => simp [genLoop]
  | cons i rest ih =>
    obtain ⟨h1, h2, h3⟩ := h i (List.mem_cons_self i rest)
    have hrest : ∀ j ∈ rest, env.cancelSig j = false ∧ env.procFail j = false ∧
        env.saveFail j = false := fun j hj => h j (List.mem_cons_of_mem i hj)
    by_cases hcb : env.hasCallback <;>
      simp [genLoop, h1, h2, h3, hcb, ih _ hrest, List.append_assoc]

/-- A run of WordGenerator.generate over at least one image, during which no
cancellation is observed and no library call fails, is fully determined: one
table of 2 columns and (n + 1) / 2 rows, cell i filled at (i / 2, i % 2), all
n temporary files created, registered and scheduled for deletion, and one
progress call per image. -/
theorem generate_clean (ip : ImageProcessor) (stem : String → String)
    (orientation : String) (env : GenEnv) (b : Bool)
    (hn : ip.images.length ≠ 0)
    (hclean : ∀ i, i < ip.images.length → env.cancelSig i = false ∧
      env.procFail i = false ∧ env.saveFail i = false) :
    generate ip stem orientation env b =
      { outcome := GenOutcome.finished
          { orientation := orientation,
            tables := [{ cols := 2, rows := (ip.images.length + 1) / 2,
                         cells := (List.range ip.images.length).map (fun i =>
                           CellFill.mk (i / 2) (i % 2) i
                             (runCaptions env stem ip.images i)) }] },
        tablesAdded := 1,
        tempCreated := List.range ip.images.length,
        tempRegistered := List.range ip.images.length,
        deletionAttempted := List.range ip.images.length,
        progressCalls := if env.hasCallback then
          (List.range ip.images.length).map (fun i => (i + 1, ip.images.length))
          else [] } := by
  have h : ∀ i ∈ List.range ip.images.length, env.cancelSig i = false ∧
      env.procFail i = false ∧ env.saveFail i = false := by
    intro i hi
    exact hclean i (List.mem_range.mp hi)
  simp [generate, ImageProcessor.get_image_paths, hn,
    genLoop_clean env (runCaptions env stem ip.images) ip.images.length 2
      (List.range ip.images.length) (GenState.mk [] [] [] []) h]

/-- Splitting List.range at an interior point. -/
theorem range_split (k m : Nat) :
    List.range (k + (m + 1)) = List.range k ++ k :: List.range' (k + 1) m := by
  rw [List.range_eq_range', List.range_eq_range']
  rw [show k + (m + 1) = (m + 1) + k by omega]
  rw [← List.range'_append 0 k (m + 1) 1]
  simp [List.range'_succ]

/-- When the cancellation flag is first observed at index k, the generate
loop processes exactly the indices before k and then returns None. -/
theorem genLoop_cancel (env : GenEnv) (captions : Nat → Option String)
    (total cols : Nat) (is1 : List Nat) (k : Nat) (is2 : List Nat) (st : GenState)
    (h : ∀ i ∈ is1, env.cancelSig i = false ∧ env.procFail i = false ∧
      env.saveFail i = false)
    (hk : env.cancelSig k = true) :
    genLoop env captions total cols (is1 ++ k :: is2) st =
      ({ tempCreated := st.tempCreated ++ is1,
         tempRegistered := st.tempRegistered ++ is1,
         cells := st.cells ++
           is1.map (fun i => CellFill.mk (i / cols) (i % cols) i (captions i)),
         progressCalls := st.progressCalls ++
           (if env.hasCallback then is1.map (fun i => (i + 1, total)) else []) },
       LoopExit.cancelled) := by
  induction is1 generalizing st with
  | nil => simp [genLoop, hk]
  | cons i rest ih =>
    obtain ⟨h1, h2, h3⟩ := h i (List.mem_cons_self i rest)
    have hrest : ∀ j ∈ rest, env.cancelSig j = false ∧ env.procFail j = false ∧
        env.saveFail j = false := fun j hj => h j (List.mem_cons_of_mem i hj)
    by_cases hcb : env.hasCallback <;>
      simp [genLoop, h1, h2, h3, hcb, ih _ hrest, List.append_assoc]

/-- A generate run on which cancel_requested is first observed true at the
check of image k (all earlier iterations running without failure) returns
None, having processed exactly images 0 .. k - 1. -/
theorem generate_cancel (ip : ImageProcessor) (stem : String → String)
    (orientation : String) (env : GenEnv) (b : Bool) (k : Nat)
    (hk : k < ip.images.length)
    (hsig : env.cancelSig k = true)
    (hbefore : ∀ j, j < k → env.cancelSig j = false)
    (hclean : ∀ j, j < k → env.procFail j = false ∧ env.saveFail j = false) :
    generate ip stem orientation env b =
      { outcome := GenOutcome.cancelled,
        tablesAdded := 1,
        tempCreated := List.range k,
        tempRegistered := List.range k,
        deletionAttempted := List.range k,
        progressCalls := if env.hasCallback then
          (List.range k).map (fun i => (i + 1, ip.images.length)) else [] } := by
  have hn : ip.images.length ≠ 0 := by omega
  have hsplit : List.range ip.images.length =
      List.range k ++ k :: List.range' (k + 1) (ip.images.length - k - 1) := by
    have h2 := range_split k (ip.images.length - k - 1)
    rw [show k + (ip.images.length - k - 1 + 1) = ip.images.length by omega] at h2
    exact h2
  have h : ∀ i ∈ List.range k, env.cancelSig i = false ∧ env.procFail i = false ∧
      env.saveFail i = false := by
    intro i hi
    have hik := List.mem_range.mp hi
    exact ⟨hbefore i hik, (hclean i hik).1, (hclean i hik).2⟩
  simp [generate, ImageProcessor.get_image_paths, hn, hsplit,
    genLoop_cancel env (runCaptions env stem ip.images) ip.images.length 2
      (List.range k) k (List.range' (k + 1) (ip.images.length - k - 1))
      (GenState.mk [] [] [] []) h hsig]

/-! ## C1 -/

/-- C1: a generate run over n >= 1 loaded images that is neither cancelled
nor aborted builds exactly one table with exactly 2 columns and
(n + 1) / 2 = ceil(n / 2) rows, and the 0-based i-th image is rendered into
the cell at row i / 2, column i % 2, the cells being filled in load order,
left to right, top to bottom. -/
theorem claim1_grid_layout (ip : ImageProcessor) (stem : String → String)
    (orientation : String) (env : GenEnv) (b : Bool)
    (hn : 1 ≤ ip.get_image_count)
    (hclean : ∀ i, i < ip.get_image_count → env.cancelSig i = false ∧
      env.procFail i = false ∧ env.saveFail i = false) :
    ∃ d : DocModel,
      (generate ip stem orientation env b).outcome = GenOutcome.finished d ∧
      d.tables.length = 1 ∧
      ∀ t ∈ d.tables,
        t.cols = 2 ∧ t.rows = (ip.get_image_count + 1) / 2 ∧
        ip.get_image_count ≤ 2 * t.rows ∧ 2 * t.rows ≤ ip.get_image_count + 1 ∧
        t.cells.length = ip.get_image_count ∧
        ∀ i, i < ip.get_image_count →
          ∃ cpt, t.cells[i]? = some (CellFill.mk (i / 2) (i % 2) i cpt) ∧
            i / 2 < t.rows := by
  have hn0 : ip.images.length ≠ 0 := by
    simp only [ImageProcessor.get_image_count] at hn; omega
  rw [generate_clean ip stem orientation env b hn0 hclean]
  refine ⟨_, rfl, rfl, ?_⟩
  intro t ht
  rw [List.mem_singleton] at ht
  subst ht
  refine ⟨rfl, rfl, ?_, ?_, by simp [ImageProcessor.get_image_count], ?_⟩
  · simp only [ImageProcessor.get_image_count]; omega
  · simp only [ImageProcessor.get_image_count]; omega
  · intro i hi
    have hi2 : i < ip.images.length := hi
    refine ⟨runCaptions env stem ip.images i, ?_, ?_⟩
    · rw [List.getElem?_map, List.getElem?_range hi2]
      rfl
    · simp only [ImageProcessor.get_image_count] at hi ⊢; omega

/-- Witness for C1: the clean three-image run. -/
theorem claim1_grid_layout_witness :
    ∃ d : DocModel,
      (generate ipABC (fun p => p) "portrait" cleanEnv false).outcome =
        GenOutcome.finished d ∧
      d.tables.length = 1 ∧
      ∀ t ∈ d.tables,
        t.cols = 2 ∧ t.rows = (ipABC.get_image_count + 1) / 2 ∧
        ipABC.get_image_count ≤ 2 * t.rows ∧ 2 * t.rows ≤ ipABC.get_image_count + 1 ∧
        t.cells.length = ipABC.get_image_count ∧
        ∀ i, i < ipABC.get_image_count →
          ∃ cpt, t.cells[i]? = some (CellFill.mk (i / 2) (i % 2) i cpt) ∧
            i / 2 < t.rows :=
  claim1_grid_layout ipABC (fun p => p) "portrait" cleanEnv false (by decide)
    (fun _ _ => ⟨rfl, rfl, rfl⟩)

/-! ## C2 -/

/-- C2: when cancel() has set cancel_requested before the check that precedes
the processing of image k (and the earlier iterations ran without failure),
generate returns None instead of a document, and no image at or after k is
processed: the temporary files created are exactly those of images 0 .. k - 1.
Moreover line 69 resets cancel_requested at the start of each run, so the
observable run does not depend on the value the flag had when generate was
entered: a cancellation request only affects the run during which it is
made. -/
theorem claim2_cancellation (ip : ImageProcessor) (stem : String → String)
    (orientation : String) (env : GenEnv) (b : Bool) (k : Nat)
    (hk : k < ip.get_image_count)
    (hsig : env.cancelSig k = true)
    (hbefore : ∀ j, j < k → env.cancelSig j = false)
    (hclean : ∀ j, j < k → env.procFail j = false ∧ env.saveFail j = false) :
    (generate ip stem orientation env b).outcome = GenOutcome.cancelled ∧
    (generate ip stem orientation env b).tempCreated = List.range k ∧
    (∀ i ∈ (generate ip stem orientation env b).tempCreated, i < k) ∧
    (∀ b1 b2 : Bool,
      generate ip stem orientation env b1 = generate ip stem orientation env b2) := by
  have hk0 : k < ip.images.length := hk
  rw [generate_cancel ip stem orientation env b k hk0 hsig hbefore hclean]
  refine ⟨rfl, rfl, ?_, fun b1 b2 => rfl⟩
  intro i hi
  exact List.mem_range.mp hi

/-- Witness for C2: a three-image run cancelled before the first image. -/
theorem claim2_cancellation_witness :
    (generate ipABC (fun p => p) "portrait" allCancelEnv false).outcome =
      GenOutcome.cancelled ∧
    (generate ipABC (fun p => p) "portrait" allCancelEnv false).tempCreated =
      List.range 0 ∧
    (∀ i ∈ (generate ipABC (fun p => p) "portrait" allCancelEnv false).tempCreated,
      i < 0) ∧
    (∀ b1 b2 : Bool,
      generate ipABC (fun p => p) "portrait" allCancelEnv b1 =
      generate ipABC (fun p => p) "portrait" allCancelEnv b2) :=
  claim2_cancellation ipABC (fun p => p) "portrait" allCancelEnv false 0 (by decide)
    rfl (fun j hj => absurd hj (Nat.not_lt_zero j))
    (fun j hj => absurd hj (Nat.not_lt_zero j))

/-! ## C3 -/

/-- The per-image captions do not depend on the callbackFail oracle. -/
theorem runCaptions_callback_irrel (env : GenEnv) (f : Nat → Bool)
    (stem : String → String) (image_paths : List String) :
    runCaptions { env with callbackFail := f } stem image_paths =
    runCaptions env stem image_paths := rfl

/-- The generate loop never reads the callbackFail oracle: the callback is
invoked inside try, its exception caught and only logged (word_generator.py
lines 196-201), so no component of the loop state depends on whether the
callback raised. -/
theorem genLoop_callback_irrel (env : GenEnv) (f : Nat → Bool)
    (captions : Nat → Option String) (total cols : Nat) (is : List Nat)
    (st : GenState) :
    genLoop { env with callbackFail := f } captions total cols is st =
    genLoop env captions total cols is st := by
  induction is generalizing st with
  | nil => rfl
  | cons i rest ih => simp only [genLoop, ih]

/-- The whole observable generate run is independent of which callback
invocations raise. -/
theorem generate_callback_irrel (ip : ImageProcessor) (stem : String → String)
    (orientation : String) (env : GenEnv) (b : Bool) (f : Nat → Bool) :
    generate ip stem orientation { env with callbackFail := f } b =
    generate ip stem orientation env b := by
  by_cases hn : ip.images.length = 0 <;>
    simp [generate, ImageProcessor.get_image_paths, hn, genLoop_callback_irrel,
      runCaptions_callback_irrel]

/-- C3: in a generate run over n images that is neither cancelled nor aborted
by a failure, a supplied progress_callback is invoked exactly once per image,
with arguments (i + 1, n) for the i-th image and in loop order, so with
strictly increasing first components; and exceptions raised by the callback
are caught: every observable of the run is independent of which callback
invocations raise. -/
theorem claim3_progress (ip : ImageProcessor) (stem : String → String)
    (orientation : String) (env : GenEnv) (b : Bool)
    (hcb : env.hasCallback = true)
    (hclean : ∀ i, i < ip.get_image_count → env.cancelSig i = false ∧
      env.procFail i = false ∧ env.saveFail i = false) :
    (generate ip stem orientation env b).progressCalls =
      (List.range ip.get_image_count).map (fun i => (i + 1, ip.get_image_count)) ∧
    (generate ip stem orientation env b).progressCalls.Pairwise
      (fun p q => p.1 < q.1) ∧
    (∀ f g : Nat → Bool,
      generate ip stem orientation { env with callbackFail := f } b =
      generate ip stem orientation { env with callbackFail := g } b) := by
  have hpair : ((List.range ip.get_image_count).map
      (fun i => (i + 1, ip.get_image_count))).Pairwise
      (fun p q : Nat × Nat => p.1 < q.1) := by
    rw [List.pairwise_map]
    exact (List.pairwise_lt_range ip.get_image_count).imp (by omega)
  have hirrel : ∀ f g : Nat → Bool,
      generate ip stem orientation { env with callbackFail := f } b =
      generate ip stem orientation { env with callbackFail := g } b := fun f g =>
    (generate_callback_irrel ip stem orientation env b f).trans
      (generate_callback_irrel ip stem orientation env b g).symm
  by_cases hn : ip.images.length = 0
  · have hcalls : (generate ip stem orientation env b).progressCalls = [] := by
      simp [generate, ImageProcessor.get_image_paths, hn]
    refine ⟨?_, ?_, hirrel⟩
    · rw [hcalls]
      simp [ImageProcessor.get_image_count, hn]
    · rw [hcalls]
      exact List.Pairwise.nil
  · rw [generate_clean ip stem orientation env b hn hclean]
    exact ⟨by simp [hcb, ImageProcessor.get_image_count], by simpa [hcb] using hpair,
      hirrel⟩

/-- Witness for C3: the clean three-image run reports (1, 3), (2, 3), (3, 3). -/
theorem claim3_progress_witness :
    (generate ipABC (fun p => p) "portrait" cleanEnv false).progressCalls =
      (List.range ipABC.get_image_count).map
        (fun i => (i + 1, ipABC.get_image_count)) ∧
    (generate ipABC (fun p => p) "portrait" cleanEnv false).progressCalls.Pairwise
      (fun p q => p.1 < q.1) ∧
    (∀ f g : Nat → Bool,
      generate ipABC (fun p => p) "portrait" { cleanEnv with callbackFail := f } false =
      generate ipABC (fun p => p) "portrait" { cleanEnv with callbackFail := g } false) :=
  claim3_progress ipABC (fun p => p) "portrait" cleanEnv false rfl
    (fun _ _ => ⟨rfl, rfl, rfl⟩)

/-! ## C4 -/

/-- Counterexample to C4 as stated.  When img.save raises for the first
image, the file just created on disk by NamedTemporaryFile was never appended
to temp_files (the append at word_generator.py line 149 sits after the save),
so the finally block attempts no deletion for it: the run exits by exception
with a created temporary file whose deletion was never attempted. -/
theorem claim4_cleanup_cex :
    (generate ipA (fun p => p) "portrait" saveFailEnv false).outcome =
      GenOutcome.raised GenError.runtimeError ∧
    ¬ (∀ t ∈ (generate ipA (fun p => p) "portrait" saveFailEnv false).tempCreated,
        t ∈ (generate ipA (fun p => p) "portrait" saveFailEnv false).deletionAttempted) := by
  constructor
  · rfl
  · decide

/-- The generate loop keeps temp_files inside the set of files actually
created: an index is registered only right after its file was created. -/
theorem genLoop_registered_sub (env : GenEnv) (captions : Nat → Option String)
    (total cols : Nat) (is : List Nat) (st : GenState)
    (h : ∀ t ∈ st.tempRegistered, t ∈ st.tempCreated) :
    ∀ t ∈ (genLoop env captions total cols is st).1.tempRegistered,
      t ∈ (genLoop env captions total cols is st).1.tempCreated := by
  induction is generalizing st with
  | nil => simpa [genLoop] using h
  | cons i rest ih =>
    cases hc : env.cancelSig i
    · cases hp : env.procFail i
      · cases hs : env.saveFail i
        · cases hcb : env.hasCallback <;>
          · simp only [genLoop, hc, hp, hs, hcb, Bool.false_eq_true, if_false, if_true]
            refine ih _ ?_
            intro t ht
            simp only [List.mem_append] at ht ⊢
            rcases ht with ht | ht
            · exact Or.inl (h t ht)
            · exact Or.inr ht
        · simp only [genLoop, hc, hp, hs, Bool.false_eq_true, if_false, if_true]
          intro t ht
          exact List.mem_append_left _ (h t ht)
      · simpa [genLoop, hc, hp] using h
    · simpa [genLoop, hc] using h

/-- C4 (amended): on every exit path of generate alike (normal return,
return of None on cancellation, propagation of an exception), the finally
block attempts deletion of exactly the temporary files registered in
temp_files, and every registered file is one that was created; a file whose
img.save raised was created but never registered, and no deletion is
attempted for it. -/
theorem claim4_cleanup (ip : ImageProcessor) (stem : String → String)
    (orientation : String) (env : GenEnv) (b : Bool) :
    (generate ip stem orientation env b).deletionAttempted =
      (generate ip stem orientation env b).tempRegistered ∧
    ∀ t ∈ (generate ip stem orientation env b).tempRegistered,
      t ∈ (generate ip stem orientation env b).tempCreated := by
  by_cases hn : ip.images.length = 0
  · simp [generate, ImageProcessor.get_image_paths, hn]
  · have hsub := genLoop_registered_sub env (runCaptions env stem ip.images)
      ip.images.length 2 (List.range ip.images.length) (GenState.mk [] [] [] [])
      (by intro t ht; simp at ht)
    constructor
    · simp [generate, ImageProcessor.get_image_paths, hn]
    · intro t ht
      simp only [generate, ImageProcessor.get_image_paths, hn, if_neg hn] at ht ⊢
      exact hsub t ht

/-- Witness for C4 (amended): on the clean one-image run the deletion
attempts are exactly the registered files, and the registered file 0 was
indeed created. -/
theorem claim4_cleanup_witness :
    (generate ipA (fun p => p) "portrait" cleanEnv false).deletionAttempted =
      (generate ipA (fun p => p) "portrait" cleanEnv false).tempRegistered ∧
    0 ∈ (generate ipA (fun p => p) "portrait" cleanEnv false).tempCreated := by
  have h := claim4_cleanup ipA (fun p => p) "portrait" cleanEnv false
  exact ⟨h.1, h.2 0 (by decide)⟩

/-! ## C10 -/

/-- The generate loop can raise only RuntimeError, never ValueError. -/
theorem genLoop_no_value_error (env : GenEnv) (captions : Nat → Option String)
    (total cols : Nat) (is : List Nat) (st : GenState) :
    (genLoop env captions total cols is st).2 ≠
      LoopExit.raised GenError.valueError := by
  induction is generalizing st with
  | nil => simp [genLoop]
  | cons i rest ih =>
    cases hc : env.cancelSig i <;> cases hp : env.procFail i <;>
      cases hs : env.saveFail i <;> cases hcb : env.hasCallback <;>
      simp [genLoop, hc, hp, hs, hcb, ih]

/-- C10: generate raises ValueError exactly when the image processor holds
zero images (word_generator.py lines 84-87), and in that case it raises
before any table is added to the document and before any temporary file is
created. -/
theorem claim10_value_error (ip : ImageProcessor) (stem : String → String)
    (orientation : String) (env : GenEnv) (b : Bool) :
    ((generate ip stem orientation env b).outcome =
        GenOutcome.raised GenError.valueError ↔ ip.get_image_count = 0) ∧
    (ip.get_image_count = 0 →
      (generate ip stem orientation env b).tablesAdded = 0 ∧
      (generate ip stem orientation env b).tempCreated = []) := by
  by_cases hn : ip.images.length = 0
  · constructor
    · simp [generate, ImageProcessor.get_image_paths,
        ImageProcessor.get_image_count, hn]
    · intro _
      simp [generate, ImageProcessor.get_image_paths, hn]
  · have hne : (generate ip stem orientation env b).outcome ≠
        GenOutcome.raised GenError.valueError := by
      have hloop := genLoop_no_value_error env (runCaptions env stem ip.images)
        ip.images.length 2 (List.range ip.images.length) (GenState.mk [] [] [] [])
      simp only [generate, ImageProcessor.get_image_paths, if_neg hn]
      rcases hres : (genLoop env (runCaptions env stem ip.images) ip.images.length 2
          (List.range ip.images.length) (GenState.mk [] [] [] [])).2 with _ | _ | e
      · simp [hres]
      · simp [hres]
      · cases e
        · exact absurd hres hloop
        · simp [hres]
    constructor
    · simp only [ImageProcessor.get_image_count]
      exact iff_of_false hne hn
    · intro h0
      exact absurd h0 hn

/-- Witness for C10: on a processor with zero images the run raises
ValueError with no table added and no temporary file created. -/
theorem claim10_value_error_witness :
    (generate ImageProcessor.init (fun p => p) "portrait" cleanEnv false).outcome =
      GenOutcome.raised GenError.valueError ∧
    (generate ImageProcessor.init (fun p => p) "portrait" cleanEnv false).tablesAdded = 0 ∧
    (generate ImageProcessor.init (fun p => p) "portrait" cleanEnv false).tempCreated = [] := by
  have h := claim10_value_error ImageProcessor.init (fun p => p) "portrait" cleanEnv false
  exact ⟨h.1.mpr rfl, (h.2 rfl).1, (h.2 rfl).2⟩

/-! ## C6 -/

/-- Every cell filled by the generate loop either was already in the state or
belongs to one of the processed indices and has the shape built at
word_generator.py lines 156-187. -/
theorem genLoop_cells_mem (env : GenEnv) (captions : Nat → Option String)
    (total cols : Nat) (is : List Nat) (st : GenState) (c : CellFill)
    (hc : c ∈ (genLoop env captions total cols is st).1.cells) :
    c ∈ st.cells ∨ ∃ i ∈ is, c = CellFill.mk (i / cols) (i % cols) i (captions i) := by
  induction is generalizing st with
  | nil =>
    left
    simpa [genLoop] using hc
  | cons i rest ih =>
    cases hcsig : env.cancelSig i
    · cases hp : env.procFail i
      · cases hs : env.saveFail i
        · cases hcb : env.hasCallback <;>
          · simp only [genLoop, hcsig, hp, hs, hcb, Bool.false_eq_true, if_false,
              if_true] at hc
            rcases ih _ hc with hin | ⟨j, hj, hcj⟩
            · simp only [List.mem_append, List.mem_singleton] at hin
              rcases hin with hin | hin
              · exact Or.inl hin
              · exact Or.inr ⟨i, List.mem_cons_self i rest, hin⟩
            · exact Or.inr ⟨j, List.mem_cons_of_mem i hj, hcj⟩
        · left
          simpa [genLoop, hcsig, hp, hs] using hc
      · left
        simpa [genLoop, hcsig, hp] using hc
    · left
      simpa [genLoop, hcsig] using hc

/-- Shape of AppConfig.get_caption_text: the caption is the template with the
number and a filename part of at most 35 characters, the file name being kept
when it has at most 35 characters and replaced by its first 32 characters
followed by an ellipsis otherwise. -/
theorem get_caption_text_shape (number : Nat) (s : String) :
    ∃ fn, get_caption_text number s = "Рис. " ++ toString number ++ ". " ++ fn ∧
      fn.length ≤ 35 ∧
      (s.length ≤ 35 → fn = s) ∧
      (35 < s.length → fn = strTake s 32 ++ "...") := by
  by_cases h : 35 < s.length
  · refine ⟨strTake s 32 ++ "...", by simp [get_caption_text, h], ?_, ?_, fun _ => rfl⟩
    · have hlen : (strTake s 32).length = min 32 s.data.length := by
        show (s.data.take 32).length = min 32 s.data.length
        exact List.length_take 32 s.data
      have hdots : ("..." : String).length = 3 := rfl
      rw [String.length_append, hlen, hdots]
      have hs : s.data.length = s.length := rfl
      omega
    · intro hle
      omega
  · exact ⟨s, by simp [get_caption_text, h], by omega, fun _ => rfl,
      fun hgt => absurd hgt h⟩

/-- C6: for every image placed in the document by a generate run, the caption
added below it (when the caption block did not raise) is the template
instantiated with number = 1-based position in the batch and filename = the
stem of the image path, the stem being replaced by its first 32 characters
followed by an ellipsis when longer than 35 characters; so the filename part
of every caption is at most 35 characters long. -/
theorem claim6_captions (ip : ImageProcessor) (stem : String → String)
    (orientation : String) (env : GenEnv) (b : Bool) (d : DocModel)
    (hd : (generate ip stem orientation env b).outcome = GenOutcome.finished d)
    (t : TableModel) (ht : t ∈ d.tables) (c : CellFill) (hc : c ∈ t.cells)
    (cap : String) (hcap : c.caption = some cap) :
    ∃ fn, cap = "Рис. " ++ toString (c.imageIndex + 1) ++ ". " ++ fn ∧
      fn.length ≤ 35 ∧
      ((stem (ip.images.getD c.imageIndex "")).length ≤ 35 →
        fn = stem (ip.images.getD c.imageIndex "")) ∧
      (35 < (stem (ip.images.getD c.imageIndex "")).length →
        fn = strTake (stem (ip.images.getD c.imageIndex "")) 32 ++ "...") := by
  by_cases hn : ip.images.length = 0
  · exfalso
    simp [generate, ImageProcessor.get_image_paths, hn] at hd
  · simp only [generate, ImageProcessor.get_image_paths, if_neg hn] at hd
    rcases hres : (genLoop env (runCaptions env stem ip.images) ip.images.length 2
        (List.range ip.images.length) (GenState.mk [] [] [] [])).2 with _ | _ | e
    · rw [hres] at hd
      simp only [GenOutcome.finished.injEq] at hd
      subst hd
      simp only [List.mem_singleton] at ht
      subst ht
      have hmem := genLoop_cells_mem env (runCaptions env stem ip.images)
        ip.images.length 2 (List.range ip.images.length) (GenState.mk [] [] [] []) c hc
      rcases hmem with hin | ⟨i, _, hci⟩
      · simp at hin
      · subst hci
        simp only [runCaptions] at hcap
        by_cases hcf : env.captionFail i
        · simp [hcf] at hcap
        · simp only [hcf, Bool.false_eq_true, if_false, Option.some.injEq] at hcap
          subst hcap
          exact get_caption_text_shape (i + 1) (stem (ip.images.getD i ""))
    · rw [hres] at hd
      simp at hd
    · rw [hres] at hd
      simp at hd

/-- Witness for C6: the first cell of the clean three-image run carries the
caption of image 1 with the untruncated one-letter stem. -/
theorem claim6_captions_witness :
    ∃ fn, "Рис. 1. a" = "Рис. " ++ toString (1 : Nat) ++ ". " ++ fn ∧
      fn.length ≤ 35 ∧ (("a" : String).length ≤ 35 → fn = "a") ∧
      (35 < ("a" : String).length → fn = strTake "a" 32 ++ "...") :=
  claim6_captions ipABC (fun p => p) "portrait" cleanEnv false dABC rfl
    tabABC (by decide) (CellFill.mk 0 0 0 (some "Рис. 1. a")) (by decide)
    "Рис. 1. a" rfl

/-! ## C8 -/

/-- C8: load_settings always returns a dict with exactly the six default
keys: when the file is missing or unreadable the pure defaults are returned;
when it parses, a saved value overrides a default exactly when its key is one
of the six, so unknown keys in the file are ignored and keys missing from the
file keep their default. -/
theorem claim8_load_settings :
    (∀ home saved, (load_settings home saved).map Prod.fst = settings_keys) ∧
    (∀ home, load_settings home none = default_settings home) ∧
    (∀ home f k, k ∈ settings_keys →
      ∃ dv, (default_settings home).lookup k = some dv ∧
        (load_settings home (some f)).lookup k = some ((f k).getD dv)) ∧
    (∀ home f k, k ∉ settings_keys →
      (load_settings home (some f)).lookup k = none) := by
  refine ⟨?_, ?_, ?_, ?_⟩
  · intro home saved
    cases saved <;> simp [load_settings, default_settings, settings_keys]
  · intro home
    rfl
  · intro home f k hk
    simp only [settings_keys, List.mem_cons, List.not_mem_nil, or_false] at hk
    rcases hk with rfl | rfl | rfl | rfl | rfl | rfl <;> exact ⟨_, rfl, rfl⟩
  · intro home f k hk
    simp only [settings_keys, List.mem_cons, List.not_mem_nil, or_false] at hk
    push_neg at hk
    obtain ⟨h1, h2, h3, h4, h5, h6⟩ := hk
    have b1 : (k == "last_path") = false := beq_eq_false_iff_ne.mpr h1
    have b2 : (k == "window_geometry") = false := beq_eq_false_iff_ne.mpr h2
    have b3 : (k == "table_width_portrait") = false := beq_eq_false_iff_ne.mpr h3
    have b4 : (k == "table_width_landscape") = false := beq_eq_false_iff_ne.mpr h4
    have b5 : (k == "jpeg_quality") = false := beq_eq_false_iff_ne.mpr h5
    have b6 : (k == "orientation") = false := beq_eq_false_iff_ne.mpr h6
    simp [load_settings, default_settings, List.lookup, b1, b2, b3, b4, b5, b6]

/-- Witness for C8: with a parsed settings file holding none of the keys,
the jpeg_quality entry keeps its default. -/
theorem claim8_load_settings_witness :
    ∃ dv, (default_settings "HOME").lookup "jpeg_quality" = some dv ∧
      (load_settings "HOME" (some (fun _ => none))).lookup "jpeg_quality" =
        some (((fun _ => (none : Option SettingValue)) "jpeg_quality").getD dv) :=
  claim8_load_settings.2.2.1 "HOME" (fun _ => none) "jpeg_quality" (by decide)

/-! ## C7 -/

/-- Rebuilding the thumbnails changes neither the image list nor the stored
rotations. -/
theorem create_thumbnails_images (s : ImageProcessor) (out : Nat → ThumbOutcome) :
    (s.create_thumbnails out).images = s.images := rfl

/-- Rebuilding the thumbnails keeps the rotations list. -/
theorem create_thumbnails_rotations (s : ImageProcessor) (out : Nat → ThumbOutcome) :
    (s.create_thumbnails out).rotations = s.rotations := rfl

/-- The image list after rotate_image. -/
theorem rotate_image_images (s : ImageProcessor) (index : ℤ) (out : Nat → ThumbOutcome) :
    ((s.rotate_image index out).2).images = s.images := by
  by_cases h : 0 ≤ index ∧ index < (s.images.length : ℤ) <;>
    simp [ImageProcessor.rotate_image, h, create_thumbnails_images]

/-- The rotations list after rotate_image: the in-range branch adds 90
degrees modulo 360 at the index, the out-of-range branch changes nothing. -/
theorem rotate_image_rotations (s : ImageProcessor) (index : ℤ) (out : Nat → ThumbOutcome) :
    ((s.rotate_image index out).2).rotations =
      if 0 ≤ index ∧ index < (s.images.length : ℤ) then
        s.rotations.set index.toNat ((s.rotations.getD index.toNat 0 + 90) % 360)
      else s.rotations := by
  by_cases h : 0 ≤ index ∧ index < (s.images.length : ℤ) <;>
    simp [ImageProcessor.rotate_image, h, create_thumbnails_rotations]

/-- The full state after rotate_image. -/
theorem rotate_image_state (s : ImageProcessor) (index : ℤ) (out : Nat → ThumbOutcome) :
    (s.rotate_image index out).2 =
      if 0 ≤ index ∧ index < (s.images.length : ℤ) then
        ({ s with rotations := (s.rotations.set index.toNat ((s.rotations.getD index.toNat 0 + 90) % 360)) }).create_thumbnails out
      else s := by
  by_cases h : 0 ≤ index ∧ index < (s.images.length : ℤ) <;>
    simp [ImageProcessor.rotate_image, h]

/-- Reading back a list entry just set. -/
theorem getD_set_same (l : List Nat) (i a : Nat) :
    (l.set i a).getD i 0 = if i < l.length then a else l.getD i 0 := by
  by_cases h : i < l.length
  · simp [List.getD_eq_getElem?_getD, List.getElem?_set, h]
  · simp [List.getD_eq_getElem?_getD, List.getElem?_set, h,
      List.getElem?_eq_none (Nat.le_of_not_lt h)]

/-- Characterization of the loop of load_images: it appends some sublist of
the argument paths to images, appends a matching number of zero rotations,
leaves thumbnails and original_sizes untouched, and returns the appended
paths as loaded. -/
theorem load_foldl (sup ver : String → Bool) (ps : List String)
    (s : ImageProcessor) (loaded : List String) :
    ∃ np : List String,
      ps.foldl (loadStep sup ver) (s, loaded) =
        ({ s with images := s.images ++ np,
                  rotations := s.rotations ++ List.replicate np.length 0 },
         loaded ++ np) := by
  induction ps generalizing s loaded with
  | nil => exact ⟨[], by simp⟩
  | cons p rest ih =>
    by_cases hp : (sup p && ver p && !(s.images.contains p)) = true
    · obtain ⟨np, hnp⟩ := ih
        { s with images := s.images ++ [p], rotations := s.rotations ++ [0] }
        (loaded ++ [p])
      refine ⟨p :: np, ?_⟩
      simp only [List.foldl_cons, loadStep, hp, if_true]
      rw [hnp]
      simp [List.append_assoc, List.replicate_succ]
    · obtain ⟨np, hnp⟩ := ih s loaded
      refine ⟨np, ?_⟩
      simp only [List.foldl_cons, loadStep, hp, if_false]
      exact hnp

/-- Full characterization of load_images in terms of the appended paths: the
loaded list is appended to images, a matching number of zero rotations is
appended, and the thumbnails are rebuilt exactly when something was loaded. -/
theorem load_images_spec (s : ImageProcessor) (ps : List String)
    (sup ver : String → Bool) (out : Nat → ThumbOutcome) :
    ∃ np : List String,
      (s.load_images ps sup ver out).2 = np ∧
      ((s.load_images ps sup ver out).1).images = s.images ++ np ∧
      ((s.load_images ps sup ver out).1).rotations =
        s.rotations ++ List.replicate np.length 0 ∧
      (np = [] → (s.load_images ps sup ver out).1 =
        { s with images := s.images ++ np,
                 rotations := s.rotations ++ List.replicate np.length 0 }) ∧
      (np ≠ [] → (s.load_images ps sup ver out).1 =
        ({ s with images := s.images ++ np,
                  rotations := s.rotations ++ List.replicate np.length 0
         }).create_thumbnails out) := by
  obtain ⟨np, hnp⟩ := load_foldl sup ver ps s []
  refine ⟨np, ?_⟩
  unfold ImageProcessor.load_images
  rw [hnp]
  by_cases hemp : np = []
  · subst hemp
    simp [create_thumbnails_images, create_thumbnails_rotations]
  · simp [hemp, create_thumbnails_images, create_thumbnails_rotations]

/-- Every public operation preserves the rotation invariant. -/
theorem rotInv_apply (s : ImageProcessor) (op : IPOp) (h : RotInv s) :
    RotInv (IPOp.apply s op) := by
  cases op with
  | load ps sup ver out =>
    obtain ⟨np, -, -, hrot, -, -⟩ := load_images_spec s ps sup ver out
    intro r hr
    simp only [IPOp.apply] at hr
    rw [hrot] at hr
    rcases List.mem_append.mp hr with hr | hr
    · exact h r hr
    · rw [List.eq_of_mem_replicate hr]
      simp [RotValues]
  | rotate idx out =>
    intro r hr
    simp only [IPOp.apply, rotate_image_rotations] at hr
    by_cases hin : 0 ≤ idx ∧ idx < (s.images.length : ℤ)
    · rw [if_pos hin] at hr
      rcases List.mem_or_eq_of_mem_set hr with hr | hr
      · exact h r hr
      · subst hr
        have hv : s.rotations.getD idx.toNat 0 ∈ RotValues := by
          by_cases hlen : idx.toNat < s.rotations.length
          · refine h _ ?_
            rw [List.getD_eq_getElem?_getD]
            rw [List.getElem?_eq_getElem hlen]
            exact List.getElem_mem hlen
          · rw [List.getD_eq_getElem?_getD, List.getElem?_eq_none (by omega)]
            simp [RotValues]
        simp only [RotValues, List.mem_cons, List.not_mem_nil, or_false] at hv ⊢
        rcases hv with hv | hv | hv | hv <;> rw [hv] <;> decide
    · rw [if_neg hin] at hr
      exact h r hr
  | remove idxs =>
    have hgen : ∀ (l : List ℤ) (t : ImageProcessor), RotInv t →
        RotInv (l.foldl removeAt t) := by
      intro l
      induction l with
      | nil => intro t ht; simpa using ht
      | cons x xs ihx =>
        intro t ht
        simp only [List.foldl_cons]
        refine ihx _ ?_
        intro r hr
        by_cases hx : 0 ≤ x ∧ x < (t.images.length : ℤ)
        · simp only [removeAt, if_pos hx] at hr
          exact ht r (List.mem_of_mem_eraseIdx hr)
        · simp only [removeAt, if_neg hx] at hr
          exact ht r hr
    exact hgen (sortDesc idxs) s h
  | clear =>
    intro r hr
    simp [ImageProcessor.clear_all, IPOp.apply] at hr

/-- Every state reachable by public operations satisfies the rotation
invariant. -/
theorem rotInv_runOps (ops : List IPOp) : RotInv (runOps ops) := by
  have hgen : ∀ (l : List IPOp) (t : ImageProcessor), RotInv t →
      RotInv (l.foldl IPOp.apply t) := by
    intro l
    induction l with
    | nil => intro t ht; simpa using ht
    | cons x xs ihx =>
      intro t ht
      simp only [List.foldl_cons]
      exact ihx _ (rotInv_apply t x ht)
  refine hgen ops ImageProcessor.init ?_
  intro r hr
  simp [ImageProcessor.init] at hr

/-- Reading the rotated entry back. -/
theorem listRot_getD (l : List Nat) (i : Nat) :
    (listRot l i).getD i 0 =
      if i < l.length then (l.getD i 0 + 90) % 360 else l.getD i 0 :=
  getD_set_same l i ((l.getD i 0 + 90) % 360)

/-- listRot keeps the length. -/
theorem listRot_length (l : List Nat) (i : Nat) :
    (listRot l i).length = l.length :=
  List.length_set l i ((l.getD i 0 + 90) % 360)

/-- Four 90 degree steps at the same index restore the entry, provided the
entry was below 360 (which the rotation invariant guarantees). -/
theorem listRot_four (l : List Nat) (i : Nat) (hv : l.getD i 0 < 360) :
    (listRot (listRot (listRot (listRot l i) i) i) i).getD i 0 = l.getD i 0 := by
  by_cases h : i < l.length
  · have hl1 : i < (listRot l i).length := by rw [listRot_length]; exact h
    have hl2 : i < (listRot (listRot l i) i).length := by rw [listRot_length]; exact hl1
    have hl3 : i < (listRot (listRot (listRot l i) i) i).length := by
      rw [listRot_length]; exact hl2
    have e1 : (listRot l i).getD i 0 = (l.getD i 0 + 90) % 360 := by
      rw [listRot_getD, if_pos h]
    have e2 : (listRot (listRot l i) i).getD i 0 =
        ((l.getD i 0 + 90) % 360 + 90) % 360 := by
      rw [listRot_getD, if_pos hl1, e1]
    have e3 : (listRot (listRot (listRot l i) i) i).getD i 0 =
        (((l.getD i 0 + 90) % 360 + 90) % 360 + 90) % 360 := by
      rw [listRot_getD, if_pos hl2, e2]
    have e4 : (listRot (listRot (listRot (listRot l i) i) i) i).getD i 0 =
        ((((l.getD i 0 + 90) % 360 + 90) % 360 + 90) % 360 + 90) % 360 := by
      rw [listRot_getD, if_pos hl3, e3]
    rw [e4]
    omega
  · have hnoop : listRot l i = l := by
      unfold listRot
      exact List.set_eq_of_length_le (by omega)
    rw [hnoop, hnoop, hnoop, hnoop]

/-- The default read of a rotations list satisfying the invariant is an
admissible value. -/
theorem getD_rot_mem (s : ImageProcessor) (hInv : RotInv s) (i : Nat) :
    s.rotations.getD i 0 ∈ RotValues := by
  by_cases hlen : i < s.rotations.length
  · refine hInv _ ?_
    rw [List.getD_eq_getElem?_getD, List.getElem?_eq_getElem hlen]
    exact List.getElem_mem hlen
  · rw [List.getD_eq_getElem?_getD, List.getElem?_eq_none (by omega)]
    simp [RotValues]

/-- Admissible rotation values are below 360. -/
theorem rotValues_lt (r : Nat) (hr : r ∈ RotValues) : r < 360 := by
  simp only [RotValues, List.mem_cons, List.not_mem_nil, or_false] at hr
  rcases hr with rfl | rfl | rfl | rfl <;> omega

/-- C7: rotate_image adds 90 degrees modulo 360 to the stored rotation and
returns True exactly on indices in range for the loaded images; on any other
index it returns False and leaves the whole state unchanged; every rotation
stored in a state reachable by public operations lies in 0, 90, 180, 270;
and four consecutive rotate_image calls on the same valid index restore the
rotation the index had before. -/
theorem claim7_rotate :
    (∀ (s : ImageProcessor) (index : ℤ) (out : Nat → ThumbOutcome),
      0 ≤ index → index < (s.images.length : ℤ) →
      s.rotations.length = s.images.length →
      (s.rotate_image index out).1 = true ∧
      ((s.rotate_image index out).2).rotations.getD index.toNat 0 =
        (s.rotations.getD index.toNat 0 + 90) % 360) ∧
    (∀ (s : ImageProcessor) (index : ℤ) (out : Nat → ThumbOutcome),
      ¬ (0 ≤ index ∧ index < (s.images.length : ℤ)) →
      (s.rotate_image index out).1 = false ∧ (s.rotate_image index out).2 = s) ∧
    (∀ ops : List IPOp, RotInv (runOps ops)) ∧
    (∀ (s : ImageProcessor) (index : ℤ) (o1 o2 o3 o4 : Nat → ThumbOutcome),
      RotInv s → 0 ≤ index → index < (s.images.length : ℤ) →
      (((((s.rotate_image index o1).2.rotate_image index o2).2.rotate_image
          index o3).2.rotate_image index o4).2).rotations.getD index.toNat 0 =
        s.rotations.getD index.toNat 0) := by
  refine ⟨?_, ?_, rotInv_runOps, ?_⟩
  · intro s index out h0 hlt hlen
    have hin : 0 ≤ index ∧ index < (s.images.length : ℤ) := ⟨h0, hlt⟩
    constructor
    · simp [ImageProcessor.rotate_image, hin]
    · rw [rotate_image_rotations, if_pos hin, getD_set_same,
        if_pos (show index.toNat < s.rotations.length by omega)]
  · intro s index out hnot
    simp [ImageProcessor.rotate_image, hnot]
  · intro s index o1 o2 o3 o4 hInv h0 hlt
    have hin : 0 ≤ index ∧ index < (s.images.length : ℤ) := ⟨h0, hlt⟩
    have him1 : (s.rotate_image index o1).2.images = s.images :=
      rotate_image_images s index o1
    have hrot1 : (s.rotate_image index o1).2.rotations =
        listRot s.rotations index.toNat := by
      rw [rotate_image_rotations, if_pos hin]; rfl
    have hin1 : 0 ≤ index ∧
        index < (((s.rotate_image index o1).2).images.length : ℤ) := by
      rw [him1]; exact hin
    have him2 : ((s.rotate_image index o1).2.rotate_image index o2).2.images =
        s.images := by
      rw [rotate_image_images, him1]
    have hrot2 : ((s.rotate_image index o1).2.rotate_image index o2).2.rotations =
        listRot (listRot s.rotations index.toNat) index.toNat := by
      rw [rotate_image_rotations, if_pos hin1, hrot1]; rfl
    have hin2 : 0 ≤ index ∧
        index < ((((s.rotate_image index o1).2.rotate_image index
          o2).2).images.length : ℤ) := by
      rw [him2]; exact hin
    have him3 : (((s.rotate_image index o1).2.rotate_image index
        o2).2.rotate_image index o3).2.images = s.images := by
      rw [rotate_image_images, him2]
    have hrot3 : (((s.rotate_image index o1).2.rotate_image index
        o2).2.rotate_image index o3).2.rotations =
        listRot (listRot (listRot s.rotations index.toNat) index.toNat)
          index.toNat := by
      rw [rotate_image_rotations, if_pos hin2, hrot2]; rfl
    have hin3 : 0 ≤ index ∧
        index < (((((s.rotate_image index o1).2.rotate_image index
          o2).2.rotate_image index o3).2).images.length : ℤ) := by
      rw [him3]; exact hin
    have hrot4 : ((((s.rotate_image index o1).2.rotate_image index
        o2).2.rotate_image index o3).2.rotate_image index o4).2.rotations =
        listRot (listRot (listRot (listRot s.rotations index.toNat)
          index.toNat) index.toNat) index.toNat := by
      rw [rotate_image_rotations, if_pos hin3, hrot3]; rfl
    rw [hrot4]
    exact listRot_four s.rotations index.toNat
      (rotValues_lt _ (getD_rot_mem s hInv index.toNat))

/-- Witness for C7: rotating the single image of ipA once stores 90. -/
theorem claim7_rotate_witness :
    (ipA.rotate_image 0 outOK).1 = true ∧
    ((ipA.rotate_image 0 outOK).2).rotations.getD (0 : ℤ).toNat 0 =
      (ipA.rotations.getD (0 : ℤ).toNat 0 + 90) % 360 :=
  claim7_rotate.1 ipA 0 outOK (by decide) (by decide) (by decide)

/-! ## C9 -/

/-- Counterexample to C9 as stated.  Loading one image whose PIL calls raise
after Image.open succeeded (so after original_sizes.append(img.size) ran)
makes the except branch of _create_thumbnails append the placeholder
thumbnail and the stub size as well: original_sizes ends with 2 entries while
images and thumbnails have 1, so the four lists no longer have equal
length after the public operation load_images. -/
theorem claim9_parallel_cex :
    (runOps [IPOp.load ["a"] (fun _ => true) (fun _ => true)
        (fun _ => ThumbOutcome.failLate (5, 5))]).images.length = 1 ∧
    (runOps [IPOp.load ["a"] (fun _ => true) (fun _ => true)
        (fun _ => ThumbOutcome.failLate (5, 5))]).thumbnails.length = 1 ∧
    (runOps [IPOp.load ["a"] (fun _ => true) (fun _ => true)
        (fun _ => ThumbOutcome.failLate (5, 5))]).original_sizes.length = 2 ∧
    ¬ EqLen (runOps [IPOp.load ["a"] (fun _ => true) (fun _ => true)
        (fun _ => ThumbOutcome.failLate (5, 5))]) :=
  ⟨rfl, rfl, rfl, fun h => absurd h.2.2 (by decide)⟩

/-- Flattening a map whose pieces are singletons gives the original length. -/
theorem length_flatten_of_all_one {α : Type} (l : List Nat) (g : Nat → List α)
    (hg : ∀ i ∈ l, (g i).length = 1) :
    ((l.map g).flatten).length = l.length := by
  induction l with
  | nil => rfl
  | cons x xs ih =>
    simp only [List.map_cons, List.flatten_cons, List.length_append,
      List.length_cons]
    rw [hg x (List.mem_cons_self x xs),
      ih (fun i hi => hg i (List.mem_cons_of_mem x hi))]
    omega

/-- When no outcome fails after the size append, _create_thumbnails rebuilds
thumbnails and original_sizes to exactly one entry per loaded image. -/
theorem create_thumbnails_lengths (s : ImageProcessor) (out : Nat → ThumbOutcome)
    (hout : ∀ i, (out i).isLate = false) :
    (s.create_thumbnails out).thumbnails.length = s.images.length ∧
    (s.create_thumbnails out).original_sizes.length = s.images.length := by
  constructor
  · refine (length_flatten_of_all_one _ _ ?_).trans (List.length_range _)
    intro i _
    cases out i <;> rfl
  · refine (length_flatten_of_all_one _ _ ?_).trans (List.length_range _)
    intro i _
    have hi := hout i
    cases hcase : out i
    · rfl
    · rfl
    · rw [hcase] at hi
      exact absurd hi (by simp [ThumbOutcome.isLate])

/-- Every public operation whose outcomes avoid late thumbnail failures
preserves the parallel-lists property. -/
theorem eqLen_apply (s : ImageProcessor) (op : IPOp) (hop : op.goodOut)
    (h : EqLen s) : EqLen (IPOp.apply s op) := by
  obtain ⟨ht, hr, hs⟩ := h
  cases op with
  | load ps sup ver out =>
    obtain ⟨np, hret, him, hrot, hempty, hsome⟩ := load_images_spec s ps sup ver out
    simp only [IPOp.apply]
    by_cases hemp : np = []
    · rw [hempty hemp]
      subst hemp
      refine ⟨by simpa using ht, by simpa using hr, by simpa using hs⟩
    · rw [hsome hemp]
      obtain ⟨hth, hsz⟩ := create_thumbnails_lengths
        { s with images := s.images ++ np,
                 rotations := s.rotations ++ List.replicate np.length 0 } out hop
      refine ⟨?_, ?_, ?_⟩
      · rw [create_thumbnails_images, hth]
      · rw [create_thumbnails_images, create_thumbnails_rotations]
        simp only [List.length_append, List.length_replicate]
        omega
      · rw [create_thumbnails_images, hsz]
  | rotate idx out =>
    simp only [IPOp.apply]
    rw [rotate_image_state]
    by_cases hin : 0 ≤ idx ∧ idx < (s.images.length : ℤ)
    · rw [if_pos hin]
      obtain ⟨hth, hsz⟩ := create_thumbnails_lengths
        { s with rotations := (s.rotations.set idx.toNat ((s.rotations.getD idx.toNat 0 + 90) % 360)) } out hop
      refine ⟨?_, ?_, ?_⟩
      · rw [create_thumbnails_images]
        exact hth
      · rw [create_thumbnails_images, create_thumbnails_rotations]
        simp only [List.length_set]
        exact hr
      · rw [create_thumbnails_images]
        exact hsz
    · rw [if_neg hin]
      exact ⟨ht, hr, hs⟩
  | remove idxs =>
    have hgen : ∀ (l : List ℤ) (t : ImageProcessor), EqLen t →
        EqLen (l.foldl removeAt t) := by
      intro l
      induction l with
      | nil => intro t hht; simpa using hht
      | cons x xs ihx =>
        intro t hht
        obtain ⟨ht1, hr1, hs1⟩ := hht
        simp only [List.foldl_cons]
        refine ihx _ ?_
        by_cases hx : 0 ≤ x ∧ x < (t.images.length : ℤ)
        · rw [removeAt, if_pos hx]
          refine ⟨?_, ?_, ?_⟩ <;>
            simp only [List.length_eraseIdx] <;>
            · split <;> split <;> omega
        · rw [removeAt, if_neg hx]
          exact ⟨ht1, hr1, hs1⟩
    exact hgen (sortDesc idxs) s ⟨ht, hr, hs⟩
  | clear =>
    exact ⟨rfl, rfl, rfl⟩

/-- C9 (amended): the four parallel lists of ImageProcessor have equal length
after every public operation, provided every failure during thumbnail
creation occurs at Image.open, before the original size is recorded (then the
except branch appends the placeholder thumbnail and the stub size, keeping
the lists parallel); a failure raised after the size was recorded appends the
size twice and breaks the property. -/
theorem claim9_parallel (ops : List IPOp) (hops : ∀ op ∈ ops, op.goodOut) :
    EqLen (runOps ops) := by
  have hgen : ∀ (l : List IPOp) (t : ImageProcessor), (∀ op ∈ l, op.goodOut) →
      EqLen t → EqLen (l.foldl IPOp.apply t) := by
    intro l
    induction l with
    | nil => intro t _ ht; simpa using ht
    | cons x xs ihx =>
      intro t hxs ht
      simp only [List.foldl_cons]
      exact ihx _ (fun op hop => hxs op (List.mem_cons_of_mem x hop))
        (eqLen_apply t x (hxs x (List.mem_cons_self x xs)) ht)
  exact hgen ops ImageProcessor.init hops ⟨rfl, rfl, rfl⟩

/-- Witness for C9: loading one image with successful PIL calls keeps the
four lists parallel. -/
theorem claim9_parallel_witness :
    EqLen (runOps [IPOp.load ["a"] (fun _ => true) (fun _ => true) outOK]) :=
  claim9_parallel [IPOp.load ["a"] (fun _ => true) (fun _ => true) outOK]
    (by
      intro op hop
      rw [List.mem_singleton] at hop
      subst hop
      intro i
      rfl)

end PhotoTable
